import Mathlib

/-!
Shallow embedding of the MilestoneFund crowdfunding escrow contract
(src/contract/src/lib.rs) and verification of its specification claims.

Addresses are modelled as natural numbers, Soroban `Map`s as association
lists, the ledger sequence number as a natural number argument, and the
instance storage slot as an `Option Project`.  Amounts (`u128`) are
modelled as `Nat`; none of the verified properties depends on 128-bit
wrap-around.  Each contract entry point is a pure function from the
storage snapshot (and the ledger sequence where the source reads it) to
`Except Error Project`; on an error the source never writes storage, which
`applyOp` makes explicit.
-/

namespace MilestoneFund

/-- The contract's error enumeration, as declared in the source. -/
inductive Error where
  | ProjectAlreadyInitialized
  | DeadlineMustBeInFuture
  | GoalMustBePositive
  | MilestoneListEmpty
  | MilestoneAmountsMismatchGoal
  | ProjectNotInitialized
  | DeadlinePassed
  | FundingIsClosed
  | FundingAmountTooLow
  | GoalNotMet
  | GoalAlreadyMet
  | MilestoneInvalidIndex
  | MilestoneAlreadyCompleted
  | MilestoneNotYetApproved
  | NotABacker
  | AlreadyVoted
  | RefundsNotAvailable
  | NoRefundsToClaim
deriving DecidableEq, Repr

/-- Lookup in an association list, mirroring `Map::get`. -/
def mapGet {α : Type} : List (Nat × α) → Nat → Option α
  | [], _ => none
  | (k, v) :: rest, key => if k = key then some v else mapGet rest key

/-- Update/insert in an association list, mirroring `Map::set`. -/
def mapSet {α : Type} : List (Nat × α) → Nat → α → List (Nat × α)
  | [], key, val => [(key, val)]
  | (k, v) :: rest, key, val =>
      if k = key then (key, val) :: rest else (k, v) :: mapSet rest key val

/-- Key membership, mirroring `Map::contains_key`. -/
def containsKey {α : Type} (m : List (Nat × α)) (key : Nat) : Bool :=
  (mapGet m key).isSome

/-- A single milestone (`struct Milestone`). -/
structure Milestone where
  title : String
  amount_to_release : Nat
  is_complete : Bool
  votes : List (Nat × Bool)
deriving DecidableEq, Repr

/-- The whole project state (`struct Project`). -/
structure Project where
  creator : Nat
  token : Nat
  goal : Nat
  raised : Nat
  deadline : Nat
  milestones : List Milestone
  backers : List (Nat × Nat)
  goal_met : Bool
deriving DecidableEq, Repr

/-- The fixed placeholder funding amount hard-coded in `fund`
(`let amount_to_fund: u128 = 100;`). -/
def amount_to_fund : Nat := 100

/-- `MilestoneFund::initialize` (renamed to avoid a reserved word):
ordered validation, then persists the fresh project. -/
def initializeProject (storage : Option Project) (seq : Nat)
    (creator token goal deadline : Nat) (milestones : List (String × Nat)) :
    Except Error Project :=
  match storage with
  | some _ => .error .ProjectAlreadyInitialized
  | none =>
    if deadline ≤ seq then .error .DeadlineMustBeInFuture
    else if goal = 0 then .error .GoalMustBePositive
    else if milestones.isEmpty then .error .MilestoneListEmpty
    else
      let total_milestone_amount := (milestones.map (fun ta => ta.2)).sum
      let milestone_vec := milestones.map (fun ta =>
        { title := ta.1, amount_to_release := ta.2, is_complete := false,
          votes := [] : Milestone })
      if total_milestone_amount ≠ goal then .error .MilestoneAmountsMismatchGoal
      else .ok { creator := creator, token := token, goal := goal, raised := 0,
                 deadline := deadline, milestones := milestone_vec,
                 backers := [], goal_met := false }

/-- `MilestoneFund::fund`: credits the fixed placeholder amount to the
backer while funding is open. -/
def fund (storage : Option Project) (seq : Nat) (backer : Nat) :
    Except Error Project :=
  match storage with
  | none => .error .ProjectNotInitialized
  | some project =>
    if project.goal_met then .error .GoalAlreadyMet
    else if project.deadline < seq then .error .DeadlinePassed
    else if amount_to_fund = 0 then .error .FundingAmountTooLow
    else
      let raised' := project.raised + amount_to_fund
      let current_funding := (mapGet project.backers backer).getD 0
      let backers' := mapSet project.backers backer (current_funding + amount_to_fund)
      let goal_met' := if project.goal ≤ raised' then true else project.goal_met
      .ok { project with raised := raised', backers := backers', goal_met := goal_met' }

/-- `MilestoneFund::vote`: records an affirmative vote on a milestone. -/
def vote (storage : Option Project) (backer : Nat) (milestone_index : Nat) :
    Except Error Project :=
  match storage with
  | none => .error .ProjectNotInitialized
  | some project =>
    if project.goal_met = false then .error .GoalNotMet
    else if containsKey project.backers backer = false then .error .NotABacker
    else
      match project.milestones[milestone_index]? with
      | none => .error .MilestoneInvalidIndex
      | some milestone =>
        if milestone.is_complete then .error .MilestoneAlreadyCompleted
        else if containsKey milestone.votes backer then .error .AlreadyVoted
        else
          let milestone' := { milestone with votes := mapSet milestone.votes backer true }
          .ok { project with milestones := project.milestones.set milestone_index milestone' }

/-- The vote-weight accumulation loop of `release_funds`: sum, over every
entry of the milestone's vote map, of that backer's recorded contribution. -/
def voteWeight (votes : List (Nat × Bool)) (backers : List (Nat × Nat)) : Nat :=
  (votes.map (fun bv => (mapGet backers bv.1).getD 0)).sum

/-- `MilestoneFund::release_funds`: marks a milestone complete once the
vote weight strictly exceeds half of `raised`. -/
def release_funds (storage : Option Project) (milestone_index : Nat) :
    Except Error Project :=
  match storage with
  | none => .error .ProjectNotInitialized
  | some project =>
    if project.goal_met = false then .error .GoalNotMet
    else
      match project.milestones[milestone_index]? with
      | none => .error .MilestoneInvalidIndex
      | some milestone =>
        if milestone.is_complete then .error .MilestoneAlreadyCompleted
        else
          let total_vote_weight := voteWeight milestone.votes project.backers
          if total_vote_weight * 2 ≤ project.raised then .error .MilestoneNotYetApproved
          else
            let milestone' := { milestone with is_complete := true }
            .ok { project with
                  milestones := project.milestones.set milestone_index milestone' }

/-- `MilestoneFund::claim_refund`: checks the refund window and the
backer's balance.  NOTE: exactly as in the source, the backer's balance is
NOT reset (the zeroing at lines 299-301 is commented out), so a successful
claim leaves the project unchanged. -/
def claim_refund (storage : Option Project) (seq : Nat) (backer : Nat) :
    Except Error Project :=
  match storage with
  | none => .error .ProjectNotInitialized
  | some project =>
    if seq ≤ project.deadline || project.goal_met then .error .RefundsNotAvailable
    else
      match mapGet project.backers backer with
      | none => .error .NoRefundsToClaim
      | some amount_to_refund =>
        if amount_to_refund = 0 then .error .NoRefundsToClaim
        else .ok project

/-- `MilestoneFund::get_backer_info`: the backer's recorded contribution,
defaulting to 0; propagates the `ProjectNotInitialized` error of
`get_project`. -/
def get_backer_info (storage : Option Project) (backer : Nat) :
    Except Error Nat :=
  match storage with
  | none => .error .ProjectNotInitialized
  | some project => .ok ((mapGet project.backers backer).getD 0)

/-- The contract's operation alphabet, used to speak about arbitrary
sequences of calls. -/
inductive Op where
  | initOp (seq creator token goal deadline : Nat) (ms : List (String × Nat))
  | fund (seq backer : Nat)
  | vote (backer : Nat) (idx : Nat)
  | release (idx : Nat)
  | claimRefund (seq backer : Nat)
  | getProject
  | getBackerInfo (backer : Nat)

/-- One step of the contract: storage is overwritten on `Ok` and left
untouched on `Err` (the source only calls `storage.set` on success paths). -/
def applyOp (s : Option Project) : Op → Option Project
  | .initOp seq c t g d ms =>
      match initializeProject s seq c t g d ms with
      | .ok p => some p
      | .error _ => s
  | .fund seq b => match fund s seq b with | .ok p => some p | .error _ => s
  | .vote b i => match vote s b i with | .ok p => some p | .error _ => s
  | .release i => match release_funds s i with | .ok p => some p | .error _ => s
  | .claimRefund seq b =>
      match claim_refund s seq b with | .ok p => some p | .error _ => s
  | .getProject => s
  | .getBackerInfo _ => s

/-- Sum of the values of a backers map. -/
def sumValues (m : List (Nat × Nat)) : Nat := (m.map (fun kv => kv.2)).sum

/-- The accounting invariant: whenever a project is stored, `raised`
equals the sum of all recorded backer contributions. -/
def RaisedInv (s : Option Project) : Prop :=
  ∀ p, s = some p → p.raised = sumValues p.backers

/-! ### Helper lemmas -/

/-- Adding `a` onto a key's current value (defaulting to 0) raises the
total of the map's values by exactly `a`. -/
theorem sumValues_mapSet_add (m : List (Nat × Nat)) (k a : Nat) :
    sumValues (mapSet m k ((mapGet m k).getD 0 + a)) = sumValues m + a := by
  induction m with
  | nil => simp [sumValues, mapSet, mapGet]
  | cons kv rest ih =>
    by_cases hk : kv.1 = k
    · simp [sumValues, mapSet, mapGet, hk, Nat.add_assoc, Nat.add_comm]
    · simp only [mapSet, mapGet, hk, if_false]
      simpa [sumValues, Nat.add_assoc] using congrArg (kv.2 + ·) ih

/-- Inversion for a successful `fund` call: the stored project had
`goal_met = false`, the deadline had not passed, and the result credits
the fixed placeholder amount with the goal flag recomputed. -/
theorem fund_ok_elim {s : Option Project} {seq b : Nat} {p' : Project}
    (h : fund s seq b = .ok p') :
    ∃ p, s = some p ∧ p.goal_met = false ∧ ¬ p.deadline < seq ∧
      p' = { p with
               raised := p.raised + amount_to_fund,
               backers := mapSet p.backers b
                 ((mapGet p.backers b).getD 0 + amount_to_fund),
               goal_met := if p.goal ≤ p.raised + amount_to_fund then true
                           else p.goal_met } := by
  cases s with
  | none => simp [fund] at h
  | some p =>
    simp only [fund] at h
    split at h
    next hg => exact Except.noConfusion h
    next hg =>
      split at h
      next hd => exact Except.noConfusion h
      next hd =>
        split at h
        next ha => exact Except.noConfusion h
        next ha =>
          injection h with h
          exact ⟨p, rfl, by simpa using hg, hd, h.symm⟩

/-- Inversion for a successful `vote` call: only the target milestone is
replaced; every other field of the project is untouched. -/
theorem vote_ok_elim {s : Option Project} {b i : Nat} {p' : Project}
    (h : vote s b i = .ok p') :
    ∃ p m, s = some p ∧ p.goal_met = true ∧ containsKey p.backers b = true ∧
      p.milestones[i]? = some m ∧ m.is_complete = false ∧
      containsKey m.votes b = false ∧
      p' = { p with milestones :=
        p.milestones.set i { m with votes := mapSet m.votes b true } } := by
  cases s with
  | none => simp [vote] at h
  | some p =>
    simp only [vote] at h
    split at h
    next hg => exact Except.noConfusion h
    next hg =>
      split at h
      next hb => exact Except.noConfusion h
      next hb =>
        split at h
        next hm => exact Except.noConfusion h
        next m hm =>
          split at h
          next hc => exact Except.noConfusion h
          next hc =>
            split at h
            next hv => exact Except.noConfusion h
            next hv =>
              injection h with h
              exact ⟨p, m, rfl, by simpa using hg, by simpa using hb, hm,
                by simpa using hc, by simpa using hv, h.symm⟩

/-- Inversion for a successful `release_funds` call: only the target
milestone is replaced (its `is_complete` flag set). -/
theorem release_funds_ok_elim {s : Option Project} {i : Nat} {p' : Project}
    (h : release_funds s i = .ok p') :
    ∃ p m, s = some p ∧ p.goal_met = true ∧ p.milestones[i]? = some m ∧
      m.is_complete = false ∧ p.raised < voteWeight m.votes p.backers * 2 ∧
      p' = { p with milestones :=
        p.milestones.set i { m with is_complete := true } } := by
  cases s with
  | none => simp [release_funds] at h
  | some p =>
    simp only [release_funds] at h
    split at h
    next hg => exact Except.noConfusion h
    next hg =>
      split at h
      next hm => exact Except.noConfusion h
      next m hm =>
        split at h
        next hc => exact Except.noConfusion h
        next hc =>
          split at h
          next hw => exact Except.noConfusion h
          next hw =>
            injection h with h
            exact ⟨p, m, rfl, by simpa using hg, hm, by simpa using hc,
              Nat.lt_of_not_le hw, h.symm⟩

/-- Inversion for a successful `claim_refund` call: the refund window is
open, the backer has a nonzero balance, and the project is returned
UNCHANGED (the source never persists a zeroed balance). -/
theorem claim_refund_ok_elim {s : Option Project} {seq b : Nat} {p' : Project}
    (h : claim_refund s seq b = .ok p') :
    ∃ p amt, s = some p ∧ ¬ (seq ≤ p.deadline || p.goal_met) = true ∧
      mapGet p.backers b = some amt ∧ amt ≠ 0 ∧ p' = p := by
  cases s with
  | none => simp [claim_refund] at h
  | some p =>
    simp only [claim_refund] at h
    split at h
    next hw => exact Except.noConfusion h
    next hw =>
      split at h
      next hm => exact Except.noConfusion h
      next amt hm =>
        split at h
        next hz => exact Except.noConfusion h
        next hz =>
          injection h with h
          exact ⟨p, amt, rfl, hw, hm, hz, h.symm⟩

/-! ### Concrete states used by witnesses and counterexamples -/

/-- A post-deadline, goal-not-met state: backer 7 contributed 100,
deadline 5 has passed by sequence 6. -/
def refundProject : Project :=
  { creator := 1, token := 2, goal := 500, raised := 100, deadline := 5,
    milestones := [{ title := "m1", amount_to_release := 500,
                     is_complete := false, votes := [] }],
    backers := [(7, 100)], goal_met := false }

/-- A freshly initialized state: nothing raised yet, goal 500. -/
def freshProject : Project :=
  { creator := 1, token := 2, goal := 500, raised := 0, deadline := 10,
    milestones := [{ title := "m1", amount_to_release := 500,
                     is_complete := false, votes := [] }],
    backers := [], goal_met := false }

/-- A state one `fund` call away from the goal: 400 of 500 raised. -/
def crossBefore : Project :=
  { creator := 1, token := 2, goal := 500, raised := 400, deadline := 10,
    milestones := [{ title := "m1", amount_to_release := 500,
                     is_complete := false, votes := [] }],
    backers := [(7, 400)], goal_met := false }

/-- The state produced by one more `fund` call by backer 7 on
`crossBefore`. -/
def crossAfter : Project :=
  { crossBefore with raised := 500, backers := [(7, 500)], goal_met := true }

/-- Pending milestone with an empty vote map. -/
def msM : Milestone :=
  { title := "m1", amount_to_release := 100, is_complete := false,
    votes := [] }

/-- A goal-met state used to exercise the frozen-state properties. -/
def metProject : Project :=
  { creator := 1, token := 2, goal := 100, raised := 100, deadline := 10,
    milestones := [msM], backers := [(7, 100)], goal_met := true }

/-- Milestone whose sole yes-vote carries weight 50 of 100 raised. -/
def msA : Milestone :=
  { title := "a", amount_to_release := 60, is_complete := false,
    votes := [(5, true)] }

/-- Milestone whose sole yes-vote carries weight 51 of 100 raised. -/
def msB : Milestone :=
  { title := "b", amount_to_release := 40, is_complete := false,
    votes := [(6, true)] }

/-- Goal-met state with raised = 100 and two pending milestones sitting
exactly at the majority boundary. -/
def majorityProject : Project :=
  { creator := 1, token := 2, goal := 100, raised := 100, deadline := 10,
    milestones := [msA, msB], backers := [(5, 50), (6, 51)], goal_met := true }

/-! ### Claim theorems -/

/-- Claim C1 (code bug): in a valid refund window (sequence 6 > deadline
5, goal not met) a claim by backer 7 succeeds but returns the project
UNCHANGED — the backer's recorded contribution is still 100, not zero —
so an identical second `claim_refund` also succeeds instead of failing
with `NoRefundsToClaim`. -/
theorem claim_refund_repeat_claim_bug :
    claim_refund (some refundProject) 6 7 = .ok refundProject ∧
    applyOp (some refundProject) (.claimRefund 6 7) = some refundProject ∧
    mapGet refundProject.backers 7 = some 100 ∧
    claim_refund (some refundProject) 6 7 ≠ .error .NoRefundsToClaim := by
  refine ⟨rfl, rfl, rfl, ?_⟩
  intro hc
  rw [show claim_refund (some refundProject) 6 7 = .ok refundProject from rfl] at hc
  exact Except.noConfusion hc

/-- Claim C2 (code bug): `fund` exposes no amount argument and always
credits the hard-coded placeholder `amount_to_fund = 100`: funding the
fresh project raises `raised` from 0 to 100, and funding `crossBefore`
raises it from 400 to 500 — the increment is the constant 100 in both
cases, never a caller-supplied amount. -/
theorem fund_fixed_placeholder_amount_bug :
    amount_to_fund = 100 ∧
    fund (some freshProject) 1 7 =
      .ok { freshProject with raised := 100, backers := [(7, 100)] } ∧
    fund (some crossBefore) 1 7 = .ok crossAfter := by
  exact ⟨rfl, rfl, rfl⟩

/-- Claim C3 counterexample: in the uninitialized state `get_backer_info`
does return an error (`ProjectNotInitialized`), refuting "never returns
an error" over every state. -/
theorem get_backer_info_uninitialized_error :
    get_backer_info none 7 = .error .ProjectNotInitialized := rfl

/-- Claim C3 (amended): for every backer and every INITIALIZED project
state, `get_backer_info` returns the backer's recorded contribution,
defaulting to 0 if the backer never contributed, and never an error. -/
theorem get_backer_info_initialized_total (p : Project) (b : Nat) :
    get_backer_info (some p) b = .ok ((mapGet p.backers b).getD 0) := rfl

/-- Claim C4: past the funding goal, on a valid not-yet-complete
milestone, `release_funds` fails with `MilestoneNotYetApproved` exactly
when the contribution weight of the milestone's recorded voters is at
most half of `raised` (`weight * 2 ≤ raised`), and succeeds (marking only
that milestone complete) when `weight * 2 > raised`. -/
theorem release_funds_majority_threshold (p : Project) (i : Nat)
    (m : Milestone) (hg : p.goal_met = true) (hm : p.milestones[i]? = some m)
    (hc : m.is_complete = false) :
    (voteWeight m.votes p.backers * 2 ≤ p.raised →
      release_funds (some p) i = .error .MilestoneNotYetApproved) ∧
    (p.raised < voteWeight m.votes p.backers * 2 →
      release_funds (some p) i = .ok { p with
        milestones := p.milestones.set i { m with is_complete := true } }) := by
  constructor
  · intro hw; simp [release_funds, hg, hm, hc, hw]
  · intro hw; simp [release_funds, hg, hm, hc, Nat.not_le.mpr hw]

/-- Claim C4 witness: in `majorityProject` (raised = 100) the milestone
whose yes-vote weight is exactly 50 is rejected, and the one whose
yes-vote weight is 51 is released. -/
theorem release_funds_majority_threshold_witness :
    release_funds (some majorityProject) 0 = .error .MilestoneNotYetApproved ∧
    release_funds (some majorityProject) 1 = .ok { majorityProject with
      milestones := majorityProject.milestones.set 1
        { msB with is_complete := true } } :=
  ⟨(release_funds_majority_threshold majorityProject 0 msA rfl rfl rfl).1
      (by decide),
   (release_funds_majority_threshold majorityProject 1 msB rfl rfl rfl).2
      (by decide)⟩

/-- Claim C6: `initializeProject` validates in the fixed source order,
first failure winning: existing project, past-or-now deadline, zero goal,
empty milestone list, milestone amounts not summing to the goal; a second
call always fails with `ProjectAlreadyInitialized` whatever the
arguments. -/
theorem initializeProject_validation_order
    (seq creator token goal deadline : Nat) (ms : List (String × Nat)) :
    (∀ p, initializeProject (some p) seq creator token goal deadline ms =
      .error .ProjectAlreadyInitialized) ∧
    (deadline ≤ seq →
      initializeProject none seq creator token goal deadline ms =
        .error .DeadlineMustBeInFuture) ∧
    (seq < deadline → goal = 0 →
      initializeProject none seq creator token goal deadline ms =
        .error .GoalMustBePositive) ∧
    (seq < deadline → goal ≠ 0 → ms = [] →
      initializeProject none seq creator token goal deadline ms =
        .error .MilestoneListEmpty) ∧
    (seq < deadline → goal ≠ 0 → ms ≠ [] →
      (ms.map (fun ta => ta.2)).sum ≠ goal →
      initializeProject none seq creator token goal deadline ms =
        .error .MilestoneAmountsMismatchGoal) := by
  refine ⟨fun p => rfl, ?_, ?_, ?_, ?_⟩
  · intro h1
    simp [initializeProject, h1]
  · intro h1 h2
    simp [initializeProject, Nat.not_le.mpr h1, h2]
  · intro h1 h2 h3
    subst h3
    simp [initializeProject, Nat.not_le.mpr h1, h2]
  · intro h1 h2 h3 h4
    cases ms with
    | nil => exact absurd rfl h3
    | cons hd tl =>
      simp only [initializeProject, Nat.not_le.mpr h1, h2, if_false,
        List.isEmpty_cons, Bool.false_eq_true]
      simpa using h4

/-- Claim C6 witness: a second call on an initialized store fails with
`ProjectAlreadyInitialized`, and a goal/milestone-sum mismatch
(goal 300, milestones summing to 250) fails with
`MilestoneAmountsMismatchGoal`. -/
theorem initializeProject_validation_order_witness :
    initializeProject (some freshProject) 0 1 2 500 10 [("m1", 500)] =
      .error .ProjectAlreadyInitialized ∧
    initializeProject none 0 1 2 300 10 [("a", 100), ("b", 150)] =
      .error .MilestoneAmountsMismatchGoal :=
  ⟨(initializeProject_validation_order 0 1 2 500 10 [("m1", 500)]).1
      freshProject,
   (initializeProject_validation_order 0 1 2 300 10
      [("a", 100), ("b", 150)]).2.2.2.2
      (by decide) (by decide) (by decide) (by decide)⟩

/-- Claim C7: `vote` fails with `GoalNotMet` pre-goal, `NotABacker` for an
unknown backer, `MilestoneInvalidIndex` for an out-of-range index,
`MilestoneAlreadyCompleted` on a complete milestone, and `AlreadyVoted`
when the backer already has a vote entry (so a vote is never removed or
overwritten); on success it records `votes[backer] = true` on exactly the
targeted milestone. -/
theorem vote_gating (p : Project) (b i : Nat) :
    (p.goal_met = false → vote (some p) b i = .error .GoalNotMet) ∧
    (p.goal_met = true → containsKey p.backers b = false →
      vote (some p) b i = .error .NotABacker) ∧
    (p.goal_met = true → containsKey p.backers b = true →
      p.milestones[i]? = none →
      vote (some p) b i = .error .MilestoneInvalidIndex) ∧
    (∀ m, p.goal_met = true → containsKey p.backers b = true →
      p.milestones[i]? = some m → m.is_complete = true →
      vote (some p) b i = .error .MilestoneAlreadyCompleted) ∧
    (∀ m, p.goal_met = true → containsKey p.backers b = true →
      p.milestones[i]? = some m → m.is_complete = false →
      containsKey m.votes b = true →
      vote (some p) b i = .error .AlreadyVoted) ∧
    (∀ m, p.goal_met = true → containsKey p.backers b = true →
      p.milestones[i]? = some m → m.is_complete = false →
      containsKey m.votes b = false →
      vote (some p) b i = .ok { p with
        milestones := p.milestones.set i
          { m with votes := mapSet m.votes b true } }) := by
  refine ⟨?_, ?_, ?_, ?_, ?_, ?_⟩
  · intro h1; simp [vote, h1]
  · intro h1 h2; simp [vote, h1, h2]
  · intro h1 h2 h3; simp [vote, h1, h2, h3]
  · intro m h1 h2 h3 h4; simp [vote, h1, h2, h3, h4]
  · intro m h1 h2 h3 h4 h5; simp [vote, h1, h2, h3, h4, h5]
  · intro m h1 h2 h3 h4 h5; simp [vote, h1, h2, h3, h4, h5]

/-- Claim C7 witness: on the goal-met state `metProject`, backer 7's vote
on milestone 0 succeeds and records a yes-vote there. -/
theorem vote_gating_witness :
    vote (some metProject) 7 0 = .ok { metProject with
      milestones := metProject.milestones.set 0
        { msM with votes := mapSet msM.votes 7 true } } :=
  (vote_gating metProject 7 0).2.2.2.2.2 msM rfl rfl rfl rfl rfl

/-- Helper: a successful `initializeProject` starts from empty storage and
produces a project with nothing raised, no backers and the goal flag
clear. -/
theorem initializeProject_ok_elim {s : Option Project} {seq c t g d : Nat}
    {ms : List (String × Nat)} {p : Project}
    (h : initializeProject s seq c t g d ms = .ok p) :
    s = none ∧ p.raised = 0 ∧ p.backers = [] ∧ p.goal_met = false := by
  cases s with
  | some q => simp [initializeProject] at h
  | none =>
    simp only [initializeProject] at h
    split at h
    next => exact Except.noConfusion h
    next =>
      split at h
      next => exact Except.noConfusion h
      next =>
        split at h
        next => exact Except.noConfusion h
        next =>
          split at h
          next => exact Except.noConfusion h
          next =>
            injection h with h
            subst h
            exact ⟨rfl, rfl, rfl, rfl⟩

/-- Claim C5: a successful `fund` starts from `goal_met = false` and ends
with `goal_met = true` exactly when the updated `raised` has reached the
goal; once `goal_met = true` a further `fund` fails with `GoalAlreadyMet`,
and past the deadline it fails with `DeadlinePassed`, in both cases
leaving the stored state untouched. -/
theorem fund_goal_crossing_and_closure (s : Option Project) (seq b : Nat) :
    (∀ p p', s = some p → fund s seq b = .ok p' →
      p.goal_met = false ∧ p'.raised = p.raised + amount_to_fund ∧
      p'.goal = p.goal ∧ (p'.goal_met = true ↔ p.goal ≤ p'.raised)) ∧
    (∀ p, s = some p → p.goal_met = true →
      fund s seq b = .error .GoalAlreadyMet ∧ applyOp s (.fund seq b) = s) ∧
    (∀ p, s = some p → p.goal_met = false → p.deadline < seq →
      fund s seq b = .error .DeadlinePassed ∧ applyOp s (.fund seq b) = s) := by
  refine ⟨?_, ?_, ?_⟩
  · intro p p' hs h
    obtain ⟨q, hq, hgm, hd, hrec⟩ := fund_ok_elim h
    rw [hs] at hq
    injection hq with hq
    subst hq
    subst hrec
    refine ⟨hgm, rfl, rfl, ?_⟩
    by_cases hgoal : p.goal ≤ p.raised + amount_to_fund
    · simp [hgoal]
    · simp [hgoal, hgm]
  · intro p hs hg
    subst hs
    exact ⟨by simp [fund, hg], by simp [applyOp, fund, hg]⟩
  · intro p hs hg hd
    subst hs
    exact ⟨by simp [fund, hg, hd], by simp [applyOp, fund, hg, hd]⟩

/-- Claim C5 witness: the call taking `raised` from 400 to 500 with goal
500 flips `goal_met` on exactly that call, and on the resulting goal-met
state another `fund` fails with `GoalAlreadyMet` leaving storage as is. -/
theorem fund_goal_crossing_and_closure_witness :
    (crossBefore.goal_met = false ∧
     crossAfter.raised = crossBefore.raised + amount_to_fund ∧
     crossAfter.goal = crossBefore.goal ∧
     (crossAfter.goal_met = true ↔ crossBefore.goal ≤ crossAfter.raised)) ∧
    (fund (some crossAfter) 2 7 = .error .GoalAlreadyMet ∧
     applyOp (some crossAfter) (.fund 2 7) = some crossAfter) :=
  ⟨(fund_goal_crossing_and_closure (some crossBefore) 1 7).1
      crossBefore crossAfter rfl rfl,
   (fund_goal_crossing_and_closure (some crossAfter) 2 7).2.1
      crossAfter rfl rfl⟩

/-- Claim C8: `raised` always equals the sum of the recorded backer
contributions: a fresh initialization establishes the invariant
(`raised = 0` over an empty map) and every contract operation preserves
it. -/
theorem raised_invariant_preserved (op : Op) (s : Option Project)
    (h : RaisedInv s) :
    RaisedInv (applyOp s op) ∧
    (∀ seq c t g d ms p, initializeProject none seq c t g d ms = .ok p →
      p.raised = sumValues p.backers) := by
  constructor
  · cases op with
    | initOp seq c t g d ms =>
      simp only [applyOp]
      cases hr : initializeProject s seq c t g d ms with
      | error e => exact h
      | ok p =>
        intro q hq
        injection hq with hq
        subst hq
        obtain ⟨-, h1, h2, -⟩ := initializeProject_ok_elim hr
        rw [h1, h2]
        rfl
    | fund seq b =>
      simp only [applyOp]
      cases hr : fund s seq b with
      | error e => exact h
      | ok p' =>
        intro q hq
        injection hq with hq
        subst hq
        obtain ⟨p, hs, -, -, hrec⟩ := fund_ok_elim hr
        subst hrec
        have hp := h p hs
        show p.raised + amount_to_fund =
          sumValues (mapSet p.backers b
            ((mapGet p.backers b).getD 0 + amount_to_fund))
        rw [sumValues_mapSet_add, hp]
    | vote b i =>
      simp only [applyOp]
      cases hr : vote s b i with
      | error e => exact h
      | ok p' =>
        intro q hq
        injection hq with hq
        subst hq
        obtain ⟨p, m, hs, -, -, -, -, -, hrec⟩ := vote_ok_elim hr
        subst hrec
        exact h p hs
    | release i =>
      simp only [applyOp]
      cases hr : release_funds s i with
      | error e => exact h
      | ok p' =>
        intro q hq
        injection hq with hq
        subst hq
        obtain ⟨p, m, hs, -, -, -, -, hrec⟩ := release_funds_ok_elim hr
        subst hrec
        exact h p hs
    | claimRefund seq b =>
      simp only [applyOp]
      cases hr : claim_refund s seq b with
      | error e => exact h
      | ok p' =>
        intro q hq
        injection hq with hq
        subst hq
        obtain ⟨p, amt, hs, -, -, -, hrec⟩ := claim_refund_ok_elim hr
        subst hrec
        exact h _ hs
    | getProject => exact h
    | getBackerInfo b => exact h
  · intro seq c t g d ms p hp
    obtain ⟨-, h1, h2, -⟩ := initializeProject_ok_elim hp
    rw [h1, h2]
    rfl

/-- Claim C8 witness: the invariant holds on `refundProject`
(raised = 100 = the single backer's 100) and is preserved by one more
`fund` step. -/
theorem raised_invariant_preserved_witness :
    RaisedInv (applyOp (some refundProject) (.fund 1 7)) :=
  (raised_invariant_preserved (.fund 1 7) (some refundProject)
    (fun p hp => by injection hp with hp; subst hp; rfl)).1

/-- Claim C9: `goal_met` is monotone: it is `false` on the project built
by a successful initialization, no operation ever turns it back from
`true` to `false`, and a successful `fund` leaves it `true` exactly when
the updated `raised` has reached the goal. -/
theorem goal_met_monotone (op : Op) (s : Option Project) :
    (∀ seq c t g d ms p, initializeProject none seq c t g d ms = .ok p →
      p.goal_met = false) ∧
    (∀ p p', s = some p → applyOp s op = some p' → p.goal_met = true →
      p'.goal_met = true) ∧
    (∀ p seq b p', s = some p → fund s seq b = .ok p' →
      (p'.goal_met = true ↔ p'.goal ≤ p'.raised)) := by
  refine ⟨?_, ?_, ?_⟩
  · intro seq c t g d ms p hp
    exact (initializeProject_ok_elim hp).2.2.2
  · intro p p' hs happ hg
    subst hs
    cases op with
    | initOp seq c t g d ms =>
      simp only [applyOp, initializeProject] at happ
      injection happ with happ
      subst happ
      exact hg
    | fund seq b =>
      cases hr : fund (some p) seq b with
      | error e =>
        simp only [applyOp, hr] at happ
        injection happ with happ
        subst happ
        exact hg
      | ok q =>
        obtain ⟨p2, hs2, hgm, -, -⟩ := fund_ok_elim hr
        injection hs2 with hs2
        subst hs2
        rw [hg] at hgm
        exact Bool.noConfusion hgm
    | vote b i =>
      cases hr : vote (some p) b i with
      | error e =>
        simp only [applyOp, hr] at happ
        injection happ with happ
        subst happ
        exact hg
      | ok q =>
        simp only [applyOp, hr] at happ
        injection happ with happ
        subst happ
        obtain ⟨p2, m, hs2, -, -, -, -, -, hrec⟩ := vote_ok_elim hr
        injection hs2 with hs2
        subst hs2
        subst hrec
        exact hg
    | release i =>
      cases hr : release_funds (some p) i with
      | error e =>
        simp only [applyOp, hr] at happ
        injection happ with happ
        subst happ
        exact hg
      | ok q =>
        simp only [applyOp, hr] at happ
        injection happ with happ
        subst happ
        obtain ⟨p2, m, hs2, -, -, -, -, hrec⟩ := release_funds_ok_elim hr
        injection hs2 with hs2
        subst hs2
        subst hrec
        exact hg
    | claimRefund seq b =>
      cases hr : claim_refund (some p) seq b with
      | error e =>
        simp only [applyOp, hr] at happ
        injection happ with happ
        subst happ
        exact hg
      | ok q =>
        simp only [applyOp, hr] at happ
        injection happ with happ
        subst happ
        obtain ⟨p2, amt, hs2, -, -, -, hrec⟩ := claim_refund_ok_elim hr
        injection hs2 with hs2
        subst hs2
        subst hrec
        exact hg
    | getProject =>
      simp only [applyOp] at happ
      injection happ with happ
      subst happ
      exact hg
    | getBackerInfo b =>
      simp only [applyOp] at happ
      injection happ with happ
      subst happ
      exact hg
  · intro p seq b p' hs h
    obtain ⟨q, hq, hgm, -, hrec⟩ := fund_ok_elim h
    rw [hs] at hq
    injection hq with hq
    subst hq
    subst hrec
    by_cases hgoal : p.goal ≤ p.raised + amount_to_fund
    · simp [hgoal]
    · simp [hgoal, hgm]

/-- Claim C9 witness: on the goal-met state `metProject`, a rejected
refund claim leaves storage untouched and `goal_met` still `true`. -/
theorem goal_met_monotone_witness : metProject.goal_met = true :=
  (goal_met_monotone (.claimRefund 20 7) (some metProject)).2.1
    metProject metProject rfl rfl rfl

/-- Claim C10: once `goal_met = true`, `backers` and `raised` are frozen:
`fund` is rejected with `GoalAlreadyMet`, `claim_refund` with
`RefundsNotAvailable`, and any successful `vote` or `release_funds` only
replaces the `milestones` field, leaving every other field (in particular
`backers` and `raised`, the inputs of the vote-weight computation)
unchanged. -/
theorem state_frozen_after_goal_met (p : Project) (hg : p.goal_met = true) :
    (∀ seq b, fund (some p) seq b = .error .GoalAlreadyMet) ∧
    (∀ seq b, claim_refund (some p) seq b = .error .RefundsNotAvailable) ∧
    (∀ b i p', vote (some p) b i = .ok p' →
      p'.backers = p.backers ∧ p'.raised = p.raised ∧
      p' = { p with milestones := p'.milestones }) ∧
    (∀ i p', release_funds (some p) i = .ok p' →
      p'.backers = p.backers ∧ p'.raised = p.raised ∧
      p' = { p with milestones := p'.milestones }) := by
  refine ⟨?_, ?_, ?_, ?_⟩
  · intro seq b
    simp [fund, hg]
  · intro seq b
    simp [claim_refund, hg]
  · intro b i p' h
    obtain ⟨q, m, hs, -, -, -, -, -, hrec⟩ := vote_ok_elim h
    injection hs with hs
    subst hs
    subst hrec
    exact ⟨rfl, rfl, rfl⟩
  · intro i p' h
    obtain ⟨q, m, hs, -, -, -, -, hrec⟩ := release_funds_ok_elim h
    injection hs with hs
    subst hs
    subst hrec
    exact ⟨rfl, rfl, rfl⟩

/-- Claim C10 witness: on the goal-met state `metProject`, `fund` fails
with `GoalAlreadyMet` and `claim_refund` with `RefundsNotAvailable`. -/
theorem state_frozen_after_goal_met_witness :
    fund (some metProject) 1 7 = .error .GoalAlreadyMet ∧
    claim_refund (some metProject) 20 7 = .error .RefundsNotAvailable :=
  ⟨(state_frozen_after_goal_met metProject rfl).1 1 7,
   (state_frozen_after_goal_met metProject rfl).2.1 20 7⟩

end MilestoneFund
